import Mathlib

/-!
Shallow embedding of the url-audit core (src/src/main.rs): the result-record
shape `OutRow`, the fetch worker `fetch_row` (normalising HTTP response,
transport error and timeout outcomes), and the bounded dispatcher loop of
`main` (spawning one task per URL and collecting one record per task, with a
sentinel record for tasks whose join fails). The network is modelled as an
oracle assigning each URL exchange an `Outcome`, and each spawned task a
`TaskFate` (joined with a row, or a join error). The semaphore admission gate
is modelled as a transition system on permit counts.
-/

namespace UrlAudit

/-- The serialised output row of main.rs: `url`, optional `status`, optional
`len` (content length), optional `error`. `u16`/`u64` become `Nat`. -/
structure OutRow where
  url : String
  status : Option Nat
  len : Option Nat
  error : Option String
  deriving DecidableEq, Repr

/-- The fixed timeout sentinel string of the timeout arm in `fetch_row`. -/
def timeoutSentinel : String := "timeout"

/-- The sentinel URL used by `main` for a task whose join failed. -/
def joinErrorUrl : String := "<join-error>"

/-- The error message `main` formats for a failed join: `join error: {e}`. -/
def joinErrorMsg (e : String) : String := "join error: " ++ e

/-- Model of Rust `str::parse::<u64>`: an optional leading plus sign, then one
or more ASCII digits, and the value must fit in 64 bits. -/
def parseU64 (s : String) : Option Nat :=
  let ds := match s.data with
    | c :: rest => if c = '+' then rest else c :: rest
    | [] => []
  if !ds.isEmpty && ds.all Char.isDigit then
    let n := ds.foldl (fun acc c => acc * 10 + (c.toNat - 48)) 0
    if n < 2 ^ 64 then some n else none
  else none

/-- Model of `http::HeaderValue::to_str`: succeeds (returning the same string)
only when every character is visible ASCII or horizontal tab. -/
def headerToStr (v : String) : Option String :=
  if v.data.all (fun c => decide (c.toNat = 9 ∨ (32 ≤ c.toNat ∧ c.toNat < 127))) then
    some v
  else none

/-- The possible outcomes of one HTTP exchange as observed by `fetch_row`:
a response carrying a status code and an optional raw content-length header
value, a transport/protocol error carrying its display string, or the
elapse of the timeout before the exchange completes. -/
inductive Outcome where
  | response (status : Nat) (contentLength : Option String)
  | transportError (msg : String)
  | timeout
  deriving DecidableEq, Repr

/-- Embedding of `fetch_row` from main.rs: it clones the URL for the timeout
arm, then matches the raced exchange. A response yields `status` set, `len`
from the content-length header via `to_str` and `parse::<u64>`, `error`
absent; a transport error yields `error` set to its message; a timeout yields
the cloned URL with the fixed sentinel error. -/
def fetch_row (url : String) (o : Outcome) : OutRow :=
  let url_for_timeout := url
  match o with
  | Outcome.response st cl =>
      { url := url
        status := some st
        len := (cl.bind headerToStr).bind parseU64
        error := none }
  | Outcome.transportError e =>
      { url := url, status := none, len := none, error := some e }
  | Outcome.timeout =>
      { url := url_for_timeout, status := none, len := none,
        error := some timeoutSentinel }

/-- The fate of one spawned task as observed by the collection loop of `main`:
either its join returns the worker's row, or the join fails with an error. -/
inductive TaskFate where
  | joined (o : Outcome)
  | joinFailed (e : String)

/-- The sentinel row `main` pushes when a task join fails. -/
def joinErrorRow (e : String) : OutRow :=
  { url := joinErrorUrl, status := none, len := none,
    error := some (joinErrorMsg e) }

/-- The record the collection loop of `main` pushes for one awaited task:
the worker's row on a successful join, the sentinel row on a failed join. -/
def taskResult (url : String) (f : TaskFate) : OutRow :=
  match f with
  | TaskFate.joined o => fetch_row url o
  | TaskFate.joinFailed e => joinErrorRow e

/-- The dispatcher loop of `main` starting at spawn index `i`: tasks are
spawned in input order and awaited in the same order, one output row pushed
per task. `fate j` is the fate of the task spawned for the `j`-th URL. -/
def dispatchFrom (i : Nat) (urls : List String) (fate : Nat → TaskFate) :
    List OutRow :=
  match urls with
  | [] => []
  | u :: rest => taskResult u (fate i) :: dispatchFrom (i + 1) rest fate

/-- The whole dispatcher of `main`: spawn one task per URL, await each in
order, collect one row per task. -/
def dispatch (urls : List String) (fate : Nat → TaskFate) : List OutRow :=
  dispatchFrom 0 urls fate

/-- The error message `main` attaches to a failed HTTP client construction
via `.context("building HTTP client")`. -/
def clientBuildFailMsg (e : String) : String := "building HTTP client: " ++ e

/-- The run-level control flow of `main` around the dispatcher: HTTP client
construction happens first and its failure aborts the run via `?` before any
task is spawned; on success the dispatcher produces the full record list. -/
def run (clientBuild : Except String Unit) (urls : List String)
    (fate : Nat → TaskFate) : Except String (List OutRow) :=
  match clientBuild with
  | Except.error e => Except.error (clientBuildFailMsg e)
  | Except.ok _ => Except.ok (dispatch urls fate)

/-- State of the semaphore admission gate: `avail` free permits, `live`
spawned tasks still holding their permit. -/
structure GateState where
  avail : Nat
  live : Nat
  deriving DecidableEq, Repr

/-- The two gate events of `main`: `spawn` consumes one free permit
(`acquire_owned` before `tokio::spawn`), `finish` returns the permit held by
a completing task (`_permit` dropped at the end of the task body). -/
inductive GateStep : GateState → GateState → Prop where
  | spawn (s : GateState) (h : 0 < s.avail) :
      GateStep s ⟨s.avail - 1, s.live + 1⟩
  | finish (s : GateState) (h : 0 < s.live) :
      GateStep s ⟨s.avail + 1, s.live - 1⟩

/-- Gate states reachable from the initial state
`Semaphore::new(concurrency)`: all permits free, no live task. -/
inductive GateReachable (limit : Nat) : GateState → Prop where
  | init : GateReachable limit ⟨limit, 0⟩
  | step (s t : GateState) (hs : GateReachable limit s) (hst : GateStep s t) :
      GateReachable limit t

/-- Sample URL used to instantiate proved statements on concrete inputs. -/
def exampleUrl : String := "http://example.com"

/-- Sample error message used to instantiate proved statements. -/
def exampleErr : String := "boom"

theorem dispatchFrom_length (i : Nat) (urls : List String)
    (fate : Nat → TaskFate) :
    (dispatchFrom i urls fate).length = urls.length := by
  induction urls generalizing i with
  | nil => rfl
  | cons u rest ih => simp [dispatchFrom, ih]

/-- Claim C1: for every input URL sequence of length N, the dispatcher's
output has exactly N result records, one per spawned task, whatever each
task's fate (successful join or join error). -/
theorem dispatch_cardinality (urls : List String) (fate : Nat → TaskFate) :
    (dispatch urls fate).length = urls.length :=
  dispatchFrom_length 0 urls fate

theorem taskResult_exclusive (u : String) (f : TaskFate) :
    (taskResult u f).status.isSome = !(taskResult u f).error.isSome := by
  cases f with
  | joined o => cases o <;> rfl
  | joinFailed e => rfl

theorem mem_dispatchFrom (i : Nat) (urls : List String) (fate : Nat → TaskFate)
    (r : OutRow) (h : r ∈ dispatchFrom i urls fate) :
    ∃ j u, r = taskResult u (fate j) := by
  induction urls generalizing i with
  | nil => cases h
  | cons v rest ih =>
    rcases List.mem_cons.mp h with h1 | h2
    · exact ⟨i, v, h1⟩
    · exact ih (i + 1) h2

/-- Claim C2: every record produced by any path (HTTP success, transport
error, timeout, join fault) has exactly one of status or error populated:
status is present precisely when error is absent. -/
theorem dispatch_status_error_exclusive (urls : List String)
    (fate : Nat → TaskFate) (r : OutRow) (h : r ∈ dispatch urls fate) :
    r.status.isSome = !r.error.isSome := by
  obtain ⟨j, u, rfl⟩ := mem_dispatchFrom 0 urls fate r h
  exact taskResult_exclusive u (fate j)

/-- Witness for C2 at a concrete run: the timeout record of a one-URL run. -/
theorem dispatch_status_error_exclusive_witness :
    (fetch_row exampleUrl Outcome.timeout).status.isSome
      = !(fetch_row exampleUrl Outcome.timeout).error.isSome :=
  dispatch_status_error_exclusive [exampleUrl]
    (fun _ => TaskFate.joined Outcome.timeout)
    (fetch_row exampleUrl Outcome.timeout)
    (List.mem_singleton.mpr rfl)

/-- Claim C3: a timed-out exchange yields a record with status absent, length
absent, error equal to the fixed timeout sentinel, and url equal to the
original input URL, preserved through the independent clone held for the
timeout arm. -/
theorem fetch_row_timeout (url : String) :
    fetch_row url Outcome.timeout =
      { url := url, status := none, len := none,
        error := some timeoutSentinel } := rfl

theorem headerToStr_eq_self (s t : String) (h : headerToStr s = some t) :
    t = s := by
  unfold headerToStr at h
  split at h
  · exact (Option.some.inj h).symm
  · cases h

/-- Claim C4: an exchange completing with an HTTP response yields a record
with status set to the numeric status code, error absent, url echoed, and
length set to n exactly when the content-length header is present, survives
the visible-ASCII check, and parses as an unsigned 64-bit integer n. -/
theorem fetch_row_response (url : String) (st : Nat) (cl : Option String)
    (n : Nat) :
    (fetch_row url (Outcome.response st cl)).status = some st ∧
    (fetch_row url (Outcome.response st cl)).error = none ∧
    (fetch_row url (Outcome.response st cl)).url = url ∧
    ((fetch_row url (Outcome.response st cl)).len = some n ↔
      ∃ s, cl = some s ∧ headerToStr s = some s ∧ parseU64 s = some n) := by
  refine ⟨rfl, rfl, rfl, ?_⟩
  show (cl.bind headerToStr).bind parseU64 = some n ↔ _
  constructor
  · intro h
    rcases Option.bind_eq_some.mp h with ⟨t, ht, hp⟩
    rcases Option.bind_eq_some.mp ht with ⟨s, hs, hh⟩
    have := headerToStr_eq_self s t hh
    subst this
    exact ⟨t, hs, hh, hp⟩
  · rintro ⟨s, rfl, hh, hp⟩
    show (headerToStr s).bind parseU64 = some n
    rw [hh]
    exact hp

/-- Claim C5: an exchange completing with a transport/protocol failure yields
a record with status absent, length absent, url equal to the input URL, and
error set to the failure's description string. -/
theorem fetch_row_transport_error (url e : String) :
    fetch_row url (Outcome.transportError e) =
      { url := url, status := none, len := none, error := some e } := rfl

theorem dispatchFrom_getElem (j i : Nat) (urls : List String)
    (fate : Nat → TaskFate) :
    (dispatchFrom j urls fate)[i]? =
      (urls[i]?).map (fun u => taskResult u (fate (j + i))) := by
  induction urls generalizing j i with
  | nil => simp [dispatchFrom]
  | cons u rest ih =>
    cases i with
    | zero => simp [dispatchFrom]
    | succ k =>
      simp only [dispatchFrom, List.getElem?_cons_succ]
      have hj : j + (k + 1) = j + 1 + k := by omega
      rw [hj]
      exact ih (j + 1) k

/-- Claim C6: a task whose join fails still contributes a record at its
position: url set to the fixed sentinel, status absent, and error set to the
join-failure description. -/
theorem dispatch_join_error (urls : List String) (fate : Nat → TaskFate)
    (i : Nat) (e : String) (h1 : i < urls.length)
    (h2 : fate i = TaskFate.joinFailed e) :
    (dispatch urls fate)[i]? = some (joinErrorRow e) ∧
    (joinErrorRow e).status = none ∧
    (joinErrorRow e).url = joinErrorUrl ∧
    (joinErrorRow e).error = some (joinErrorMsg e) := by
  refine ⟨?_, rfl, rfl, rfl⟩
  have hg := dispatchFrom_getElem 0 i urls fate
  rw [dispatch, hg, List.getElem?_eq_getElem h1]
  simp [h2, taskResult]

/-- Witness for C6: a one-URL run whose only task's join fails produces the
sentinel record. -/
theorem dispatch_join_error_witness :
    (dispatch [exampleUrl] (fun _ => TaskFate.joinFailed exampleErr))[0]? =
        some (joinErrorRow exampleErr) ∧
    (joinErrorRow exampleErr).status = none ∧
    (joinErrorRow exampleErr).url = joinErrorUrl ∧
    (joinErrorRow exampleErr).error = some (joinErrorMsg exampleErr) :=
  dispatch_join_error [exampleUrl] (fun _ => TaskFate.joinFailed exampleErr)
    0 exampleErr (by decide) rfl

theorem gate_sum_invariant (limit : Nat) (s : GateState)
    (h : GateReachable limit s) : s.avail + s.live = limit := by
  induction h with
  | init => rfl
  | step t u ht htu ih =>
    cases htu with
    | spawn hp =>
      show t.avail - 1 + (t.live + 1) = limit
      omega
    | finish hp =>
      show t.avail + 1 + (t.live - 1) = limit
      omega

/-- Claim C7: the admission gate bounds concurrency: in every state reachable
from the initial semaphore state (all permits free, no live task), the number
of live worker tasks never exceeds the configured limit. -/
theorem gate_live_le_limit (limit : Nat) (s : GateState)
    (h : GateReachable limit s) : s.live ≤ limit := by
  have := gate_sum_invariant limit s h
  omega

/-- Witness for C7: with limit 2, the state after one spawn has one live task,
within the limit. -/
theorem gate_live_le_limit_witness : GateState.live ⟨1, 1⟩ ≤ 2 :=
  gate_live_le_limit 2 ⟨1, 1⟩
    (GateReachable.step ⟨2, 0⟩ ⟨1, 1⟩ GateReachable.init
      (GateStep.spawn ⟨2, 0⟩ (by decide)))

/-- Claim C8: if HTTP client construction fails, the whole run fails with the
wrapped setup error before any task is spawned, so no per-URL records are
produced. -/
theorem run_client_build_failure (e : String) (urls : List String)
    (fate : Nat → TaskFate) :
    run (Except.error e) urls fate =
      Except.error (clientBuildFailMsg e) := rfl

theorem dispatchFrom_congr (j : Nat) (urls : List String)
    (f1 f2 : Nat → TaskFate)
    (h : ∀ i, i < urls.length → f1 (j + i) = f2 (j + i)) :
    dispatchFrom j urls f1 = dispatchFrom j urls f2 := by
  induction urls generalizing j with
  | nil => rfl
  | cons u rest ih =>
    have h0 : f1 j = f2 j := by
      have := h 0 (by simp)
      simpa using this
    have hr : dispatchFrom (j + 1) rest f1 = dispatchFrom (j + 1) rest f2 := by
      refine ih (j + 1) (fun i hi => ?_)
      have hx := h (i + 1) (by simpa using Nat.succ_lt_succ hi)
      have hj : j + (i + 1) = j + 1 + i := by omega
      rw [hj] at hx
      exact hx
    simp [dispatchFrom, h0, hr]

/-- Claim C9: the normalisation from exchange outcomes to records is
deterministic: two runs over the same URLs observing identical per-task fates
produce identical record lists (hence equal multisets of records). -/
theorem dispatch_deterministic (urls : List String) (f1 f2 : Nat → TaskFate)
    (h : ∀ i, i < urls.length → f1 i = f2 i) :
    dispatch urls f1 = dispatch urls f2 :=
  dispatchFrom_congr 0 urls f1 f2 (fun i hi => by simpa using h i hi)

/-- Witness for C9: two pointwise equal fate assignments over a one-URL run
yield the same output. -/
theorem dispatch_deterministic_witness :
    dispatch [exampleUrl] (fun _ => TaskFate.joined Outcome.timeout) =
      dispatch [exampleUrl] (fun _j => TaskFate.joined Outcome.timeout) :=
  dispatch_deterministic [exampleUrl]
    (fun _ => TaskFate.joined Outcome.timeout)
    (fun _j => TaskFate.joined Outcome.timeout) (fun i _ => rfl)

/-- Claim C10: the output preserves input order: the record at index i of the
dispatcher's output is exactly the record for the i-th spawned task (the
worker's row, or the join-error sentinel row occupying that position), and
indices beyond the input length are absent. -/
theorem dispatch_preserves_order (urls : List String) (fate : Nat → TaskFate)
    (i : Nat) :
    (dispatch urls fate)[i]? =
      (urls[i]?).map (fun u => taskResult u (fate i)) := by
  have := dispatchFrom_getElem 0 i urls fate
  simpa [dispatch] using this

end UrlAudit
